import Mathlib

/-!
Verification of the meal-planning adapter
(`src/mcp-servers/meal-planning/meal_planning_server.py`).

The Python module is shallowly embedded below.  JSON values (the values
flowing through `dict` objects in the Python code) are modelled by the
inductive type `Json`; Python exceptions are modelled by `PyErr` and
fallible code returns `Except PyErr _`.  The wall clock read by
`datetime.utcnow()` is an explicit `Date` argument, and the network is an
explicit oracle `HttpRequest → HttpResponse` together with the list of
requests actually issued.
-/

/-- A JSON value, as decoded by `response.json()` in the Python module and
as held in Python dictionaries there.  Numbers are modelled as integers
(no claim depends on fractional values). -/
inductive Json where
  | null : Json
  | bool : Bool → Json
  | num : Int → Json
  | str : String → Json
  | arr : List Json → Json
  | obj : List (String × Json) → Json

/-- Python truthiness (`if x:`) of a decoded JSON value: `None`, `False`,
`0`, `""`, `[]` and the empty dict are falsy, everything else truthy. -/
def Json.truthy : Json → Bool
  | .null => false
  | .bool b => b
  | .num n => n != 0
  | .str s => s != ""
  | .arr xs => !xs.isEmpty
  | .obj kvs => !kvs.isEmpty

/-- Whether a JSON value is a Python dict. -/
def Json.isObj : Json → Bool
  | .obj _ => true
  | _ => false

/-- Comma-separated join used by the Python `repr` of lists and dicts. -/
def joinComma : List String → String
  | [] => ""
  | [s] => s
  | s :: s2 :: rest => s ++ ", " ++ joinComma (s2 :: rest)

/-- The Python `repr` of a decoded JSON value (`None`, `True`, numbers,
quoted strings, bracketed lists, braced dicts).  String escaping inside
`repr` is not modelled: the adapter never feeds strings needing escapes
to `repr` (container rendering is only reachable on adversarial plans). -/
def pyRepr : Json → String
  | .null => "None"
  | .bool b => cond b "True" "False"
  | .num n => toString n
  | .str s => "\x27" ++ s ++ "\x27"
  | .arr xs => "[" ++ joinComma (xs.attach.map fun x => pyRepr x.1) ++ "]"
  | .obj kvs =>
      "\x7b" ++
        joinComma (kvs.attach.map fun kv =>
          "\x27" ++ kv.1.1 ++ "\x27: " ++ pyRepr kv.1.2) ++
      "\x7d"
decreasing_by
  · have := List.sizeOf_lt_of_mem x.2
    simp only [Json.arr.sizeOf_spec]
    omega
  · have h1 := List.sizeOf_lt_of_mem kv.2
    have h2 : sizeOf kv.1.2 < sizeOf kv.1 := by
      obtain ⟨a, b⟩ := kv.1
      simp only [Prod.mk.sizeOf_spec]
      omega
    simp only [Json.obj.sizeOf_spec]
    omega

/-- The Python `str` of a decoded JSON value, as used by f-string
interpolation in the formatter.  `str` agrees with `repr` except on
strings, which are rendered without quotes. -/
def pyStr : Json → String
  | .null => "None"
  | .bool b => cond b "True" "False"
  | .num n => toString n
  | .str s => s
  | .arr xs => pyRepr (.arr xs)
  | .obj kvs => pyRepr (.obj kvs)

/-- First-match association-list lookup: the value stored under a key of a
Python dict (dict keys are unique, so first match is the match). -/
def lookupKey : List (String × Json) → String → Option Json
  | [], _ => none
  | (k, v) :: rest, key => if k == key then some v else lookupKey rest key

/-- Lookup of a key on an arbitrary JSON value, `none` when the value is
not a dict or the key is absent.  Used only to state theorems. -/
def lookupOnObj (j : Json) (k : String) : Option Json :=
  match j with
  | .obj kvs => lookupKey kvs k
  | _ => none

/-- A Python exception, as raised by the embedded code.  The payload of
`runtimeError` and `valueError` is the exception message. -/
inductive PyErr where
  | runtimeError : String → PyErr
  | valueError : String → PyErr
  | httpError : Nat → PyErr
  | jsonDecodeError : PyErr
  | attributeError : PyErr
  | typeError : PyErr
deriving DecidableEq

/-- The Python `str(error)` applied to an exception, as used by the
`generate_meal_plan` wrapper when re-raising as `RuntimeError`. -/
def pyErrMessage : PyErr → String
  | .runtimeError m => m
  | .valueError m => m
  | .httpError status => "HTTP error " ++ toString status
  | .jsonDecodeError => "Expecting value"
  | .attributeError => "object has no attribute get"
  | .typeError => "object is not iterable"

/-- `x.get(key, default)` on a Python value: returns the stored value, the
default when the key is absent, and raises `AttributeError` when the
receiver is not a dict. -/
def pyGetD (j : Json) (k : String) (default : Json) : Except PyErr Json :=
  match j with
  | .obj kvs => .ok ((lookupKey kvs k).getD default)
  | _ => .error .attributeError

/-- A calendar date, the part of a Python `datetime` that the formatter
renders (the strftime format `%A, %B %d %Y` uses no time-of-day field). -/
structure Date where
  year : Nat
  month : Nat
  day : Nat
deriving DecidableEq

/-- Gregorian leap-year test. -/
def isLeap (y : Nat) : Bool :=
  (y % 4 == 0 && y % 100 != 0) || y % 400 == 0

/-- Days in a month of the Gregorian calendar. -/
def daysInMonth (y m : Nat) : Nat :=
  if m == 2 then (if isLeap y then 29 else 28)
  else if m == 4 || m == 6 || m == 9 || m == 11 then 30
  else 31

/-- Day of the week of a Gregorian date (0 = Sunday), by the Sakamoto
formula; matches the weekday reported by the Python `datetime` library. -/
def dayOfWeek (y m d : Nat) : Nat :=
  let t := [0, 3, 2, 5, 0, 3, 5, 1, 4, 6, 2, 4]
  let y2 := if m < 3 then y - 1 else y
  (y2 + y2 / 4 - y2 / 100 + y2 / 400 + t.getD (m - 1) 0 + d) % 7

/-- English weekday name, strftime `%A`. -/
def weekdayName (n : Nat) : String :=
  ["Sunday", "Monday", "Tuesday", "Wednesday", "Thursday", "Friday",
    "Saturday"].getD n ""

/-- English month name, strftime `%B`. -/
def monthName (m : Nat) : String :=
  ["January", "February", "March", "April", "May", "June", "July",
    "August", "September", "October", "November", "December"].getD (m - 1) ""

/-- Two-digit zero padding, strftime `%d`. -/
def pad2 (n : Nat) : String :=
  if n < 10 then "0" ++ toString n else toString n

/-- The strftime format string `"%A, %B %d %Y"` of the Python module
applied to a date. -/
def strftimeLong (d : Date) : String :=
  weekdayName (dayOfWeek d.year d.month d.day) ++ ", " ++
    monthName d.month ++ " " ++ pad2 d.day ++ " " ++ toString d.year

/-- Numeric value of a decimal digit character. -/
def digitVal (c : Char) : Option Nat :=
  if c.isDigit then some (c.toNat - 48) else none

/-- Reads exactly `n` decimal digits, returning their value and the rest
of the input. -/
def readDigits : Nat → Nat → List Char → Option (Nat × List Char)
  | 0, acc, cs => some (acc, cs)
  | _ + 1, _, [] => none
  | n + 1, acc, c :: cs =>
      match digitVal c with
      | some d => readDigits n (acc * 10 + d) cs
      | none => none

/-- Consumes the given character from the front of the input. -/
def expectChar (c : Char) : List Char → Option (List Char)
  | [] => none
  | x :: xs => if x == c then some xs else none

/-- Consumes a fractional-seconds field of exactly three or six digits
(the documented `.fff[fff]` form of `datetime.fromisoformat`). -/
def parseFrac36 (cs : List Char) : Option (List Char) :=
  let ds := cs.takeWhile Char.isDigit
  if ds.length == 3 || ds.length == 6 then some (cs.dropWhile Char.isDigit)
  else none

/-- Parses a trailing UTC offset `+HH:MM[:SS[.ffffff]]` or the `-` form
(or nothing), the documented offset shape of `datetime.fromisoformat`,
validating the field ranges; the whole rest of the input must be
consumed. -/
def parseOffset : List Char → Option Unit
  | [] => some ()
  | c :: cs =>
      if c == '+' || c == '-' then
        match readDigits 2 0 cs with
        | some (h, cs1) =>
            match expectChar ':' cs1 with
            | some cs2 =>
                match readDigits 2 0 cs2 with
                | some (m, cs3) =>
                    if h ≤ 23 && m ≤ 59 then
                      match cs3 with
                      | [] => some ()
                      | ':' :: cs4 =>
                          match readDigits 2 0 cs4 with
                          | some (s, cs5) =>
                              if s ≤ 59 then
                                match cs5 with
                                | [] => some ()
                                | '.' :: cs6 =>
                                    if cs6.length == 6 && cs6.all Char.isDigit
                                    then some () else none
                                | _ => none
                              else none
                          | none => none
                      | _ => none
                    else none
                | none => none
            | none => none
        | none => none
      else none

/-- Parses the time-of-day part `HH[:MM[:SS[.fff[fff]]]]` (hour-only
times are valid, as in `datetime.fromisoformat`) followed by an optional
UTC offset, validating the field ranges. -/
def parseTime (cs : List Char) : Option Unit :=
  match readDigits 2 0 cs with
  | some (h, cs1) =>
      if h ≤ 23 then
        match cs1 with
        | ':' :: cs2 =>
            match readDigits 2 0 cs2 with
            | some (mi, cs3) =>
                if mi ≤ 59 then
                  match cs3 with
                  | ':' :: cs4 =>
                      match readDigits 2 0 cs4 with
                      | some (s, cs5) =>
                          if s ≤ 59 then
                            match cs5 with
                            | '.' :: cs6 =>
                                match parseFrac36 cs6 with
                                | some cs7 => parseOffset cs7
                                | none => none
                            | _ => parseOffset cs5
                          else none
                      | none => none
                  | _ => parseOffset cs3
                else none
            | none => none
        | _ => parseOffset cs1
      else none
  | none => none

/-- Model of the Python library function `datetime.fromisoformat`,
following its documented grammar
`YYYY-MM-DD[*HH[:MM[:SS[.fff[fff]]]][+HH:MM[:SS[.ffffff]]]]`, where `*`
is any single separator character and hour-only times are valid, with
full range validation (year 1..9999, valid month, valid day of month,
valid time and offset fields); `none` models a raised `ValueError`.
Later library versions accept some further forms (such as fractions of
other lengths); the model follows the documented grammar, which every
version accepts.  The adapter only ever calls it after replacing every
`Z` with `+00:00`. -/
def fromisoformat (s : String) : Option Date :=
  match readDigits 4 0 s.data with
  | some (y, cs1) =>
      match expectChar '-' cs1 with
      | some cs2 =>
          match readDigits 2 0 cs2 with
          | some (mo, cs3) =>
              match expectChar '-' cs3 with
              | some cs4 =>
                  match readDigits 2 0 cs4 with
                  | some (d, cs5) =>
                      if 1 ≤ y && y ≤ 9999 && 1 ≤ mo && mo ≤ 12 &&
                          1 ≤ d && d ≤ daysInMonth y mo then
                        match cs5 with
                        | [] => some ⟨y, mo, d⟩
                        | _ :: rest =>
                            match parseTime rest with
                            | some _ => some ⟨y, mo, d⟩
                            | none => none
                      else none
                  | none => none
              | none => none
          | none => none
      | none => none
  | none => none

/-- The Python expression `s.replace("Z", "+00:00")`: every occurrence of
the character `Z` is replaced. -/
def replaceZChars : List Char → List Char
  | [] => []
  | c :: cs =>
      if c == 'Z' then '+' :: '0' :: '0' :: ':' :: '0' :: '0' :: replaceZChars cs
      else c :: replaceZChars cs

/-- String form of `replaceZChars`. -/
def pyReplaceZ (s : String) : String :=
  ⟨replaceZChars s.data⟩

/-- A run of `n` copies of one character, the Python expression
`c * n` on strings (used for the `=` and `-` rules). -/
def charRun (c : Char) (n : Nat) : String :=
  ⟨List.replicate n c⟩

/-- The visual separator element appended at line 75 of the source:
`"\n" + "=" * 50 + "\n"`. -/
def sepElem : String :=
  "\n" ++ charRun '=' 50 ++ "\n"

/-- The date rendered on the `Generated:` line (source lines 53-62).  A
truthy event date that is a string is parsed with `fromisoformat` after
replacing `Z` by `+00:00` and rendered long-form on success; any failure
inside the `try` block (parse failure, or `.replace` on a non-string) is
caught and the raw value is echoed, rendered by `str` as the f-string
would.  A falsy event date falls back to `datetime.utcnow()`, the `now`
argument of the embedding. -/
def readableDate (eventDate : Json) (now : Date) : String :=
  if eventDate.truthy then
    match eventDate with
    | .str s =>
        match fromisoformat (pyReplaceZ s) with
        | some d => strftimeLong d
        | none => s
    | v => pyStr v
  else strftimeLong now

/-- Header of the report (source lines 51-75): title line, `Generated:`
line, the four conditional preference lines, and the separator element.
Every access goes through `preferences.get`, so a non-dict preferences
value raises `AttributeError` exactly as in Python. -/
def headerLines (preferences : Json) (now : Date) : Except PyErr (List String) := do
  let eventDate ← pyGetD preferences "eventDate" .null
  let readable := readableDate eventDate now
  let fs ← pyGetD preferences "familySize" .null
  let di ← pyGetD preferences "diet" .null
  let ex ← pyGetD preferences "exclude" .null
  let tc ← pyGetD preferences "targetCalories" .null
  pure ("WEEKLY MEAL PLAN" ::
    ("Generated: " ++ readable ++ "\n") ::
    ((if fs.truthy then ["Family Size: " ++ pyStr fs] else []) ++
     ((if di.truthy then ["Dietary Preference: " ++ pyStr di] else []) ++
      ((if ex.truthy then ["Exclusions: " ++ pyStr ex] else []) ++
       ((if tc.truthy then ["Daily Calorie Target: " ++ pyStr tc] else []) ++
        [sepElem])))))

/-- The day label of a meal entry: `str(meal.get("day", "Unknown"))`
(source line 81), as a pure function on dict meals; only stated for
reasoning — the embedding itself goes through `pyGetD`. -/
def mealDayLabel (meal : Json) : String :=
  match meal with
  | .obj kvs => pyStr ((lookupKey kvs "day").getD (.str "Unknown"))
  | _ => pyStr (.str "Unknown")

/-- `grouped.setdefault(day, []).append(meal)` on an insertion-ordered
dict represented as an association list (source line 82). -/
def addToGroup (g : List (String × List Json)) (day : String) (m : Json) :
    List (String × List Json) :=
  match g with
  | [] => [(day, [m])]
  | (d, ms) :: rest =>
      if d == day then (d, ms ++ [m]) :: rest
      else (d, ms) :: addToGroup rest day m

/-- The grouping loop of source lines 80-82, threading the accumulated
dict; raises `AttributeError` when a meal entry is not a dict. -/
def groupMealsAux (g : List (String × List Json)) :
    List Json → Except PyErr (List (String × List Json))
  | [] => .ok g
  | meal :: rest => do
      let d ← pyGetD meal "day" (.str "Unknown")
      groupMealsAux (addToGroup g (pyStr d) meal) rest

/-- Groups the meal list by day label (source lines 79-82). -/
def groupMeals (ms : List Json) : Except PyErr (List (String × List Json)) :=
  groupMealsAux [] ms

/-- `grouped[day]` (source line 87): the meals stored under a day label,
empty when the label is absent. -/
def lookupGroup (g : List (String × List Json)) (day : String) : List Json :=
  match g with
  | [] => []
  | (d, ms) :: rest => if d == day then ms else lookupGroup rest day

/-- The per-meal lines of source lines 88-97: header line with emoji and
title (default `Untitled Meal`), conditional ready-in, servings and
recipe-URL lines, and the trailing blank element. -/
def renderMeal (meal : Json) : Except PyErr (List String) := do
  let title ← pyGetD meal "title" (.str "Untitled Meal")
  let ready ← pyGetD meal "readyInMinutes" .null
  let servings ← pyGetD meal "servings" .null
  let mid ← pyGetD meal "id" .null
  pure (("🍽️ " ++ pyStr title) ::
    ((if ready.truthy then ["   Ready in: " ++ pyStr ready ++ " minutes"] else []) ++
     ((if servings.truthy then ["   Servings: " ++ pyStr servings] else []) ++
      ((if mid.truthy then
          ["   Recipe URL: https://spoonacular.com/recipes/-" ++ pyStr mid]
        else []) ++
       [""]))))

/-- The lines of one day group (source lines 85-98): `DAY` header, dash
rule, each meal of the group in stored order, and the trailing blank
element of the day. -/
def dayLines (g : List (String × List Json)) (day : String) :
    Except PyErr (List String) := do
  let rendered ← (lookupGroup g day).foldlM
    (fun acc m => do
      let ls ← renderMeal m
      pure (acc ++ ls)) []
  pure (("DAY " ++ day) :: charRun '-' 30 :: (rendered ++ [""]))

/-- Code-point comparison of character lists: the Python string `<` used
by `sorted` on the day labels (lexicographic, by Unicode code point). -/
def charsLt : List Char → List Char → Bool
  | _, [] => false
  | [], _ :: _ => true
  | a :: as, b :: bs =>
      if a.toNat < b.toNat then true
      else if b.toNat < a.toNat then false
      else charsLt as bs

/-- Python string `<`. -/
def strLtB (a b : String) : Bool := charsLt a.data b.data

/-- Python string `<=` (the negation of the reversed strict order). -/
def strLeB (a b : String) : Bool := !charsLt b.data a.data

/-- One insertion step of the ascending stable sort. -/
def insertSorted (a : String) : List String → List String
  | [] => [a]
  | b :: bs => if strLeB a b then a :: b :: bs else b :: insertSorted a bs

/-- The Python builtin `sorted` on a list of strings: ascending, stable
(insertion sort is an implementation of its specification). -/
def sortStrings : List String → List String
  | [] => []
  | a :: as => insertSorted a (sortStrings as)

/-- The meal section of the report (source lines 77-98): nothing unless
`meal_plan.get("meals")` is a list; otherwise the day groups are emitted
with the day labels in ascending string-sorted order. -/
def mealsLines (meal_plan : Json) : Except PyErr (List String) := do
  let meals ← pyGetD meal_plan "meals" .null
  match meals with
  | .arr ms => do
      let g ← groupMeals ms
      (sortStrings (g.map Prod.fst)).foldlM
        (fun acc d => do
          let ls ← dayLines g d
          pure (acc ++ ls)) []
  | _ => pure []

/-- The nutrition section (source lines 100-108): emitted when
`meal_plan.get("nutrients")` is truthy; each of the four fields defaults
to `N/A`, and the gram suffix follows protein, fat and carbohydrates.  A
truthy non-dict nutrients value raises `AttributeError` at the first
`.get`, as in Python. -/
def nutrientLines (meal_plan : Json) : Except PyErr (List String) := do
  let nutrients ← pyGetD meal_plan "nutrients" .null
  if nutrients.truthy then do
    let cal ← pyGetD nutrients "calories" (.str "N/A")
    let pro ← pyGetD nutrients "protein" (.str "N/A")
    let fat ← pyGetD nutrients "fat" (.str "N/A")
    let car ← pyGetD nutrients "carbohydrates" (.str "N/A")
    pure [charRun '=' 50, "NUTRITION SUMMARY", charRun '-' 30,
      "Calories: " ++ pyStr cal,
      "Protein: " ++ pyStr pro ++ "g",
      "Fat: " ++ pyStr fat ++ "g",
      "Carbohydrates: " ++ pyStr car ++ "g"]
  else pure []

/-- One grocery item (source lines 116-121): checkbox marker, name with
default, aisle in parentheses when truthy. -/
def renderItem (item : Json) : Except PyErr String := do
  let name ← pyGetD item "name" (.str "Unnamed Item")
  let aisle ← pyGetD item "aisle" .null
  if aisle.truthy then pure ("☑ " ++ pyStr name ++ " (" ++ pyStr aisle ++ ")")
  else pure ("☑ " ++ pyStr name)

/-- The grocery section (source lines 110-121): emitted when
`meal_plan.get("items")` is truthy.  In Python, iterating a truthy
non-list value here always ends in an exception (`TypeError` for a
non-iterable, `AttributeError` on the first element of a string or of a
dict key view); the embedding collapses those cases to one error. -/
def groceryLines (meal_plan : Json) : Except PyErr (List String) := do
  let items ← pyGetD meal_plan "items" .null
  if items.truthy then
    match items with
    | .arr xs => do
        let ls ← xs.mapM renderItem
        pure (("\n" ++ charRun '=' 50) :: "GROCERY LIST" :: charRun '-' 30 :: ls)
    | _ => .error .typeError
  else pure []

/-- `"\n".join(lines)`. -/
def joinNl : List String → String
  | [] => ""
  | [l] => l
  | l :: l2 :: ls => l ++ "\n" ++ joinNl (l2 :: ls)

/-- The whitespace strip on a character list: leading and trailing
whitespace removed. -/
def stripChars (cs : List Char) : List Char :=
  ((cs.dropWhile Char.isWhitespace).reverse.dropWhile Char.isWhitespace).reverse

/-- The Python `"...".strip()` with no argument. -/
def pyStrip (s : String) : String :=
  ⟨stripChars s.data⟩

/-- The plan formatter, `format_meal_plan(meal_plan, preferences)` of
source lines 50-123, with the wall-clock date made explicit.  The four
sections are evaluated in source order, so the first raised exception is
the one surfaced, as in Python. -/
def format_meal_plan (meal_plan preferences : Json) (now : Date) :
    Except PyErr String := do
  let hd ← headerLines preferences now
  let ml ← mealsLines meal_plan
  let nl ← nutrientLines meal_plan
  let gl ← groceryLines meal_plan
  pure (pyStrip (joinNl (hd ++ (ml ++ (nl ++ gl)))))

/-- The caller preference parameters of `generate_meal_plan` and of the
CLI (identical parameter lists).  `none` models an unset optional
parameter (Python `None`). -/
structure Prefs where
  time_frame : String
  target_calories : Option Int
  diet : Option String
  exclude : Option String
  family_size : Option Int
  event_date : Option String

/-- Python truthiness of an optional integer parameter (`None` and `0`
are falsy). -/
def truthyOptInt : Option Int → Bool
  | none => false
  | some n => n != 0

/-- Python truthiness of an optional string parameter (`None` and the
empty string are falsy). -/
def truthyOptStr : Option String → Bool
  | none => false
  | some s => s != ""

/-- The upstream query parameters built by
`_generate_meal_plan_internal` (source lines 135-141): `timeFrame`
always; `targetCalories`, `diet`, `exclude` each added only when the
corresponding argument is truthy.  The family size and the event date do
not appear in this construction, as in the source. -/
def build_params (p : Prefs) : List (String × Json) :=
  [("timeFrame", Json.str p.time_frame)] ++
    ((match p.target_calories with
      | some n => if n != 0 then [("targetCalories", Json.num n)] else []
      | none => []) ++
     ((match p.diet with
       | some s => if s != "" then [("diet", Json.str s)] else []
       | none => []) ++
      (match p.exclude with
       | some s => if s != "" then [("exclude", Json.str s)] else []
       | none => [])))

/-- Whether a key occurs in a query-parameter list. -/
def containsKey (l : List (String × Json)) (k : String) : Bool :=
  (lookupKey l k).isSome

/-- JSON encoding of an optional integer argument (`None` becomes
`null`). -/
def optIntJson : Option Int → Json
  | none => .null
  | some n => .num n

/-- JSON encoding of an optional string argument (`None` becomes
`null`). -/
def optStrJson : Option String → Json
  | none => .null
  | some s => .str s

/-- The echoed preferences dict built at source lines 144-150 and again
at 194-200 and 259-265: exactly the five keys `familySize`,
`targetCalories`, `diet`, `exclude`, `eventDate`, in that order, each
echoing the caller argument (`null` when unset).  The time frame is not
among them. -/
def echo_preferences (p : Prefs) : Json :=
  .obj [("familySize", optIntJson p.family_size),
        ("targetCalories", optIntJson p.target_calories),
        ("diet", optStrJson p.diet),
        ("exclude", optStrJson p.exclude),
        ("eventDate", optStrJson p.event_date)]

/-- The process environment: the one variable the module reads,
`SPOONACULAR_API_KEY`, loaded once at startup with
`os.getenv("SPOONACULAR_API_KEY", "")`; the empty string therefore means
`no credential configured`. -/
structure Env where
  SPOONACULAR_API_KEY : String

/-- The fixed upstream base URL of the module. -/
def SPOONACULAR_BASE_URL : String := "https://api.spoonacular.com"

/-- One outbound HTTP GET request: the URL and the query parameters
passed to `requests.get`. -/
structure HttpRequest where
  url : String
  params : List (String × Json)

/-- The upstream response as the client observes it: the HTTP status and
the decoded JSON body (`none` when the body is not valid JSON, which
makes `response.json()` raise). -/
structure HttpResponse where
  status : Nat
  jsonBody : Option Json

/-- The Python dict merge `{**params, "apiKey": key}`: replaces the value
in place when the key is already present, appends it otherwise. -/
def dictSet (l : List (String × Json)) (k : String) (v : Json) :
    List (String × Json) :=
  if containsKey l k then
    l.map (fun kv => if kv.1 == k then (k, v) else kv)
  else l ++ [(k, v)]

/-- `call_spoonacular(endpoint, params)` of source lines 38-47, with the
network as an oracle.  Returns the result together with the list of HTTP
requests actually issued.  A missing credential raises `RuntimeError`
before any request; `response.raise_for_status()` raises on any status
of 400 or above; a non-JSON body raises when decoding. -/
def call_spoonacular (env : Env) (net : HttpRequest → HttpResponse)
    (endpoint : String) (params : List (String × Json)) :
    Except PyErr Json × List HttpRequest :=
  if env.SPOONACULAR_API_KEY == "" then
    (.error (.runtimeError "SPOONACULAR_API_KEY environment variable is not set."),
      [])
  else
    let req : HttpRequest :=
      { url := SPOONACULAR_BASE_URL ++ endpoint,
        params := dictSet params "apiKey" (.str env.SPOONACULAR_API_KEY) }
    let resp := net req
    if 400 ≤ resp.status then (.error (.httpError resp.status), [req])
    else
      match resp.jsonBody with
      | some j => (.ok j, [req])
      | none => (.error .jsonDecodeError, [req])

/-- `_generate_meal_plan_internal` of source lines 126-153 (the leading
underscore of the Python name is dropped): builds the query, calls the
upstream endpoint, formats the plan against the echoed preferences, and
returns the plan, the text and the always-`None` document slot. -/
def generate_meal_plan_internal (env : Env) (net : HttpRequest → HttpResponse)
    (now : Date) (p : Prefs) :
    Except PyErr (Json × String × Option Json) × List HttpRequest :=
  let params := build_params p
  match call_spoonacular env net "/mealplanner/generate" params with
  | (.error e, reqs) => (.error e, reqs)
  | (.ok meal_plan, reqs) =>
      match format_meal_plan meal_plan (echo_preferences p) now with
      | .error e => (.error e, reqs)
      | .ok doc_text => (.ok (meal_plan, doc_text, none), reqs)

/-- The response envelope serialized at source lines 202-209 (tool
surface) with its literal `"document": None` entry. -/
def toolEnvelope (meal_plan : Json) (doc_text : String) (p : Prefs) : Json :=
  .obj [("mealPlan", meal_plan),
        ("formattedText", .str doc_text),
        ("document", .null),
        ("preferences", echo_preferences p)]

/-- The `generate_meal_plan` tool operation of source lines 156-209: the
time-frame check precedes everything else; an inner exception is
re-raised as `RuntimeError(str(error))`; on success the JSON envelope is
returned.  The result carries the list of HTTP requests issued. -/
def generate_meal_plan (env : Env) (net : HttpRequest → HttpResponse)
    (now : Date) (p : Prefs) : Except PyErr Json × List HttpRequest :=
  if p.time_frame == "day" || p.time_frame == "week" then
    match generate_meal_plan_internal env net now p with
    | (.ok (meal_plan, doc_text, _), reqs) =>
        (.ok (toolEnvelope meal_plan doc_text p), reqs)
    | (.error e, reqs) => (.error (.runtimeError (pyErrMessage e)), reqs)
  else
    (.error (.valueError "time_frame must be either \x27day\x27 or \x27week\x27"),
      [])

/-- The CLI output document of `run_cli`, source lines 246-267: the same
envelope shape, with the document slot taken from the third component of
the internal result (always `None`). -/
def run_cli_output (env : Env) (net : HttpRequest → HttpResponse)
    (now : Date) (args : Prefs) : Except PyErr Json × List HttpRequest :=
  match generate_meal_plan_internal env net now args with
  | (.ok (meal_plan, doc_text, document_info), reqs) =>
      (.ok (.obj [("mealPlan", meal_plan),
                  ("formattedText", .str doc_text),
                  ("document", match document_info with
                               | none => .null
                               | some j => j),
                  ("preferences", echo_preferences args)]), reqs)
  | (.error e, reqs) => (.error e, reqs)

/-- Whether an `Except` result is a success. -/
def exceptOk {ε α : Type} : Except ε α → Bool
  | .ok _ => true
  | .error _ => false

/-- The plans on which the formatter is defensive by construction: the
plan is a dict; its `meals`, when a list, holds only dicts; its
`nutrients`, when truthy, is a dict; its `items`, when truthy, is a list
of dicts.  Field absence is always allowed — this predicate restricts
only the types of present fields. -/
def wellTypedPlan (plan : Json) : Bool :=
  match plan with
  | .obj kvs =>
      (match (lookupKey kvs "meals").getD .null with
       | .arr ms => ms.all Json.isObj
       | _ => true) &&
      ((let n := (lookupKey kvs "nutrients").getD .null
        !n.truthy || n.isObj) &&
       (let it := (lookupKey kvs "items").getD .null
        !it.truthy ||
          (match it with
           | .arr xs => xs.all Json.isObj
           | _ => false)))
  | _ => false

/-- Key occurrence distributes over query-list concatenation. -/
theorem containsKey_append (l1 l2 : List (String × Json)) (k : String) :
    containsKey (l1 ++ l2) k = (containsKey l1 k || containsKey l2 k) := by
  induction l1 with
  | nil => simp [containsKey, lookupKey]
  | cons kv rest ih =>
      obtain ⟨k1, v1⟩ := kv
      by_cases h : (k1 == k) = true
      · simp [containsKey, lookupKey, h]
      · simp only [List.cons_append, containsKey, lookupKey] at *
        rw [if_neg h, if_neg h] at *
        exact ih

/-- The time frame always heads the built query. -/
theorem build_params_timeFrame (p : Prefs) :
    lookupKey (build_params p) "timeFrame" = some (.str p.time_frame) := rfl

/-- `targetCalories` occurs in the built query exactly when the argument
is truthy. -/
theorem build_params_targetCalories (p : Prefs) :
    containsKey (build_params p) "targetCalories" = truthyOptInt p.target_calories := by
  rcases p with ⟨tf, tc, di, ex, fs, ed⟩
  simp only [build_params, containsKey_append]
  cases tc <;> cases di <;> cases ex <;>
    simp [containsKey, lookupKey, truthyOptInt] <;>
    split_ifs <;> simp_all [containsKey, lookupKey]

/-- `diet` occurs in the built query exactly when the argument is
truthy. -/
theorem build_params_diet (p : Prefs) :
    containsKey (build_params p) "diet" = truthyOptStr p.diet := by
  rcases p with ⟨tf, tc, di, ex, fs, ed⟩
  simp only [build_params, containsKey_append]
  cases tc <;> cases di <;> cases ex <;>
    simp [containsKey, lookupKey, truthyOptStr] <;>
    split_ifs <;> simp_all [containsKey, lookupKey]

/-- `exclude` occurs in the built query exactly when the argument is
truthy. -/
theorem build_params_exclude (p : Prefs) :
    containsKey (build_params p) "exclude" = truthyOptStr p.exclude := by
  rcases p with ⟨tf, tc, di, ex, fs, ed⟩
  simp only [build_params, containsKey_append]
  cases tc <;> cases di <;> cases ex <;>
    simp [containsKey, lookupKey, truthyOptStr] <;>
    split_ifs <;> simp_all [containsKey, lookupKey]

/-- The family size never occurs in the built query. -/
theorem build_params_no_familySize (p : Prefs) :
    containsKey (build_params p) "familySize" = false := by
  rcases p with ⟨tf, tc, di, ex, fs, ed⟩
  simp only [build_params, containsKey_append]
  cases tc <;> cases di <;> cases ex <;>
    simp [containsKey, lookupKey] <;>
    split_ifs <;> simp_all [containsKey, lookupKey]

/-- The built query does not depend on the family size at all. -/
theorem build_params_family_independent (p : Prefs) (fs : Option Int) :
    build_params { p with family_size := fs } = build_params p := rfl

/-- With a credential configured, `call_spoonacular` issues exactly one
request: the endpoint appended to the base URL, with the credential
merged into the query. -/
theorem call_spoonacular_requests (env : Env) (net : HttpRequest → HttpResponse)
    (endpoint : String) (params : List (String × Json))
    (hk : env.SPOONACULAR_API_KEY ≠ "") :
    (call_spoonacular env net endpoint params).2 =
      [{ url := SPOONACULAR_BASE_URL ++ endpoint,
         params := dictSet params "apiKey" (.str env.SPOONACULAR_API_KEY) }] := by
  have hb : (env.SPOONACULAR_API_KEY == "") = false := by simp [hk]
  unfold call_spoonacular
  simp only [hb, Bool.false_eq_true, if_false]
  split
  · rfl
  · split <;> rfl

/-- The internal generator issues either no request (credential missing)
or exactly the one upstream request carrying the built query plus the
credential. -/
theorem internal_requests (env : Env) (net : HttpRequest → HttpResponse)
    (now : Date) (p : Prefs) :
    (generate_meal_plan_internal env net now p).2 = [] ∨
    (generate_meal_plan_internal env net now p).2 =
      [{ url := SPOONACULAR_BASE_URL ++ "/mealplanner/generate",
         params := dictSet (build_params p) "apiKey"
           (.str env.SPOONACULAR_API_KEY) }] := by
  simp only [generate_meal_plan_internal]
  by_cases hk : env.SPOONACULAR_API_KEY = ""
  · left
    simp [call_spoonacular, hk]
  · right
    have h2 := call_spoonacular_requests env net "/mealplanner/generate"
      (build_params p) hk
    rcases hc : call_spoonacular env net "/mealplanner/generate" (build_params p)
      with ⟨res, reqs⟩
    rw [hc] at h2
    simp only at h2
    cases res with
    | error e => simpa using h2
    | ok mp =>
        cases hf : format_meal_plan mp (echo_preferences p) now <;>
          simp only [hf] <;> simpa using h2

/-- Witness fixture: a network oracle answering 200 with an empty JSON
object. -/
def netOk : HttpRequest → HttpResponse := fun _ => ⟨200, some (.obj [])⟩

/-- Witness fixture: a one-day request with no optional preference. -/
def pDay : Prefs := ⟨"day", none, none, none, none, none⟩

/-- Witness fixture: an invalid time frame. -/
def pMonth : Prefs := ⟨"month", none, none, none, none, none⟩

/-- Witness fixture: the generation date used by witnesses. -/
def nowW : Date := ⟨2026, 10, 12⟩

/-- C1: the upstream query built for the meal-plan request always
contains the time frame; it contains `targetCalories`, `diet` and
`exclude` exactly when the corresponding argument is truthy — hence only
when the preference is present, and never for an unset field, which is
omitted rather than sent as an empty string; the family size never
occurs in the query and the query does not depend on it; and the one
request actually issued (when any is issued) carries exactly this query
plus the credential. -/
theorem claim_C1 (p : Prefs) :
    lookupKey (build_params p) "timeFrame" = some (.str p.time_frame) ∧
    containsKey (build_params p) "targetCalories" = truthyOptInt p.target_calories ∧
    containsKey (build_params p) "diet" = truthyOptStr p.diet ∧
    containsKey (build_params p) "exclude" = truthyOptStr p.exclude ∧
    containsKey (build_params p) "familySize" = false ∧
    (∀ fs : Option Int, build_params { p with family_size := fs } = build_params p) ∧
    (∀ (env : Env) (net : HttpRequest → HttpResponse) (now : Date),
      (generate_meal_plan_internal env net now p).2 = [] ∨
      (generate_meal_plan_internal env net now p).2 =
        [{ url := SPOONACULAR_BASE_URL ++ "/mealplanner/generate",
           params := dictSet (build_params p) "apiKey"
             (.str env.SPOONACULAR_API_KEY) }]) :=
  ⟨build_params_timeFrame p, build_params_targetCalories p, build_params_diet p,
    build_params_exclude p, build_params_no_familySize p,
    fun fs => build_params_family_independent p fs,
    fun env net now => internal_requests env net now p⟩

/-- C2: any time frame outside `day`/`week` makes `generate_meal_plan`
fail with the `ValueError` of source line 180 (the spec taxonomy name is
`InvalidArgument`) and no HTTP request is issued. -/
theorem claim_C2 (env : Env) (net : HttpRequest → HttpResponse) (now : Date)
    (p : Prefs) (h1 : p.time_frame ≠ "day") (h2 : p.time_frame ≠ "week") :
    generate_meal_plan env net now p =
      (.error (.valueError "time_frame must be either \x27day\x27 or \x27week\x27"),
        []) := by
  have hb : (p.time_frame == "day" || p.time_frame == "week") = false := by
    simp [h1, h2]
  simp [generate_meal_plan, hb]

/-- C2 witness: the concrete time frame `month` is rejected without any
request. -/
theorem claim_C2_witness :
    ("month" : String) ≠ "day" ∧ ("month" : String) ≠ "week" ∧
    generate_meal_plan ⟨"k"⟩ netOk nowW pMonth =
      (.error (.valueError "time_frame must be either \x27day\x27 or \x27week\x27"),
        []) :=
  ⟨by decide, by decide, claim_C2 ⟨"k"⟩ netOk nowW pMonth (by decide) (by decide)⟩

/-- C3: with no credential configured (the environment variable is read
as the empty string), `call_spoonacular` fails with the `RuntimeError`
of source lines 39-42 (the spec taxonomy name is `ConfigurationError`)
for every endpoint and parameter list, and issues no HTTP request. -/
theorem claim_C3 (env : Env) (net : HttpRequest → HttpResponse)
    (endpoint : String) (params : List (String × Json))
    (h : env.SPOONACULAR_API_KEY = "") :
    call_spoonacular env net endpoint params =
      (.error (.runtimeError "SPOONACULAR_API_KEY environment variable is not set."),
        []) := by
  simp [call_spoonacular, h]

/-- C3 witness: the empty credential rejects a concrete call with no
request issued. -/
theorem claim_C3_witness :
    (Env.mk "").SPOONACULAR_API_KEY = "" ∧
    call_spoonacular ⟨""⟩ netOk "/mealplanner/generate" [] =
      (.error (.runtimeError "SPOONACULAR_API_KEY environment variable is not set."),
        []) :=
  ⟨rfl, claim_C3 ⟨""⟩ netOk "/mealplanner/generate" [] rfl⟩

/-- C10: a zero target-calories or family-size argument is handled
exactly like an unset one — a zero target drops the `targetCalories`
query parameter, and a zero family size (or zero target) produces the
same formatted report as the absent field, for every plan, date and
remaining preferences. -/
theorem claim_C10 (p : Prefs) (plan : Json) (now : Date) :
    build_params { p with target_calories := some 0 } =
      build_params { p with target_calories := none } ∧
    containsKey (build_params { p with target_calories := some 0 })
      "targetCalories" = false ∧
    format_meal_plan plan (echo_preferences { p with family_size := some 0 }) now =
      format_meal_plan plan (echo_preferences { p with family_size := none }) now ∧
    format_meal_plan plan (echo_preferences { p with target_calories := some 0 }) now =
      format_meal_plan plan (echo_preferences { p with target_calories := none }) now :=
  ⟨rfl,
    by
      have h := build_params_targetCalories { p with target_calories := some 0 }
      simpa [truthyOptInt] using h,
    rfl, rfl⟩

/-- The key list of a JSON dict (empty for non-dicts); used only to state
theorems. -/
def objKeys (j : Json) : List String :=
  match j with
  | .obj kvs => kvs.map Prod.fst
  | _ => []

/-- Witness fixture: the text the formatter produces for an empty plan
and no preferences on the witness date. -/
def docTextW : String :=
  "WEEKLY MEAL PLAN\nGenerated: Monday, October 12 2026\n\n\n" ++ charRun '=' 50

/-- Witness fixture: the tool-surface envelope of the witness run. -/
def toolEnvelopeW : Json := toolEnvelope (.obj []) docTextW pDay

/-- Witness fixture: the CLI envelope of the witness run. -/
def cliEnvelopeW : Json :=
  .obj [("mealPlan", .obj []),
        ("formattedText", .str docTextW),
        ("document", .null),
        ("preferences", echo_preferences pDay)]

/-- The third component of a successful internal result is always
`None` (source line 153). -/
theorem internal_document_none (env : Env) (net : HttpRequest → HttpResponse)
    (now : Date) (p : Prefs) {mp : Json} {dt : String} {di : Option Json}
    {reqs : List HttpRequest}
    (h : generate_meal_plan_internal env net now p = (.ok (mp, dt, di), reqs)) :
    di = none := by
  simp only [generate_meal_plan_internal] at h
  rcases hc : call_spoonacular env net "/mealplanner/generate" (build_params p)
    with ⟨res, rs⟩
  rw [hc] at h
  cases res with
  | error e => simp at h
  | ok planJ =>
      dsimp only at h
      cases hf : format_meal_plan planJ (echo_preferences p) now with
      | error e => rw [hf] at h; simp at h
      | ok dtxt =>
          rw [hf] at h
          simp only [Prod.mk.injEq, Except.ok.injEq] at h
          exact h.1.2.2.symm

/-- C8: on every successful invocation, through the tool surface or the
CLI, the `document` field of the returned envelope is `null`; no code
path writes anything else there. -/
theorem claim_C8 (env : Env) (net : HttpRequest → HttpResponse) (now : Date)
    (p : Prefs) :
    (∀ e, (generate_meal_plan env net now p).1 = .ok e →
      lookupOnObj e "document" = some .null) ∧
    (∀ e, (run_cli_output env net now p).1 = .ok e →
      lookupOnObj e "document" = some .null) := by
  constructor
  · intro e he
    unfold generate_meal_plan at he
    by_cases htf : (p.time_frame == "day" || p.time_frame == "week") = true
    · rw [if_pos htf] at he
      rcases hi : generate_meal_plan_internal env net now p with ⟨res, reqs⟩
      rw [hi] at he
      cases res with
      | ok v =>
          obtain ⟨mp, dt, di⟩ := v
          cases he
          rfl
      | error err => simp at he
    · rw [if_neg htf] at he
      simp at he
  · intro e he
    unfold run_cli_output at he
    rcases hi : generate_meal_plan_internal env net now p with ⟨res, reqs⟩
    rw [hi] at he
    cases res with
    | ok v =>
        obtain ⟨mp, dt, di⟩ := v
        have hd := internal_document_none env net now p hi
        subst hd
        cases he
        rfl
    | error err => simp at he

/-- C8 witness: a concrete successful tool invocation whose envelope has
a `null` document field. -/
theorem claim_C8_witness :
    (generate_meal_plan ⟨"k"⟩ netOk nowW pDay).1 = .ok toolEnvelopeW ∧
    lookupOnObj toolEnvelopeW "document" = some .null :=
  ⟨rfl, (claim_C8 ⟨"k"⟩ netOk nowW pDay).1 toolEnvelopeW rfl⟩

/-- C9: the echoed preferences object carries exactly the five fields
`familySize`, `targetCalories`, `diet`, `exclude`, `eventDate`, each
echoing the caller argument (`null` when unset); the time frame is never
among them; and every successful envelope (tool surface or CLI) carries
exactly this object under `preferences`. -/
theorem claim_C9 (p : Prefs) (env : Env) (net : HttpRequest → HttpResponse)
    (now : Date) :
    objKeys (echo_preferences p) =
      ["familySize", "targetCalories", "diet", "exclude", "eventDate"] ∧
    lookupOnObj (echo_preferences p) "familySize" = some (optIntJson p.family_size) ∧
    lookupOnObj (echo_preferences p) "targetCalories" =
      some (optIntJson p.target_calories) ∧
    lookupOnObj (echo_preferences p) "diet" = some (optStrJson p.diet) ∧
    lookupOnObj (echo_preferences p) "exclude" = some (optStrJson p.exclude) ∧
    lookupOnObj (echo_preferences p) "eventDate" = some (optStrJson p.event_date) ∧
    lookupOnObj (echo_preferences p) "timeFrame" = none ∧
    (∀ e, (generate_meal_plan env net now p).1 = .ok e →
      lookupOnObj e "preferences" = some (echo_preferences p)) ∧
    (∀ e, (run_cli_output env net now p).1 = .ok e →
      lookupOnObj e "preferences" = some (echo_preferences p)) := by
  refine ⟨rfl, rfl, rfl, rfl, rfl, rfl, rfl, ?_, ?_⟩
  · intro e he
    unfold generate_meal_plan at he
    by_cases htf : (p.time_frame == "day" || p.time_frame == "week") = true
    · rw [if_pos htf] at he
      rcases hi : generate_meal_plan_internal env net now p with ⟨res, reqs⟩
      rw [hi] at he
      cases res with
      | ok v =>
          obtain ⟨mp, dt, di⟩ := v
          cases he
          rfl
      | error err => simp at he
    · rw [if_neg htf] at he
      simp at he
  · intro e he
    unfold run_cli_output at he
    rcases hi : generate_meal_plan_internal env net now p with ⟨res, reqs⟩
    rw [hi] at he
    cases res with
    | ok v =>
        obtain ⟨mp, dt, di⟩ := v
        cases di with
        | none => cases he; rfl
        | some j => cases he; rfl
    | error err => simp at he

/-- C9 witness: a concrete successful CLI run whose envelope echoes
exactly the five preference fields. -/
theorem claim_C9_witness :
    (run_cli_output ⟨"k"⟩ netOk nowW pDay).1 = .ok cliEnvelopeW ∧
    lookupOnObj cliEnvelopeW "preferences" = some (echo_preferences pDay) :=
  ⟨rfl, (claim_C9 pDay ⟨"k"⟩ netOk nowW).2.2.2.2.2.2.2.2 cliEnvelopeW rfl⟩

/-- The header never fails on a dict preferences value. -/
theorem headerLines_ok (kvs : List (String × Json)) (now : Date) :
    ∃ ls, headerLines (.obj kvs) now = .ok ls :=
  ⟨_, rfl⟩

/-- A dict meal always renders. -/
theorem renderMeal_ok (kvs : List (String × Json)) :
    ∃ ls, renderMeal (.obj kvs) = .ok ls :=
  ⟨_, rfl⟩

/-- Bind on a success reduces. -/
theorem exceptBind_ok {ε α β : Type} (a : α) (f : α → Except ε β) :
    (Except.ok a >>= f) = f a := rfl

/-- Bind on an error short-circuits. -/
theorem exceptBind_error {ε α β : Type} (e : ε) (f : α → Except ε β) :
    ((Except.error e : Except ε α) >>= f) = Except.error e := rfl

/-- Boolean equality on strings is symmetric. -/
theorem strBeqComm (a b : String) : (a == b) = (b == a) := by
  by_cases h : a = b
  · subst h; rfl
  · have h2 : ¬b = a := fun x => h x.symm
    simp [h, h2]

/-- `grouped[day]` after a `setdefault`-append: the old group extended by
the new meal exactly at its day label. -/
theorem lookupGroup_addToGroup (g : List (String × List Json)) (day : String)
    (m : Json) (d : String) :
    lookupGroup (addToGroup g day m) d =
      lookupGroup g d ++ (if d == day then [m] else []) := by
  induction g with
  | nil =>
      simp only [addToGroup, lookupGroup, List.nil_append]
      rw [strBeqComm day d]
  | cons kv rest ih =>
      obtain ⟨k1, l1⟩ := kv
      simp only [addToGroup]
      by_cases hk : k1 = day
      · subst hk
        simp only [beq_self_eq_true, if_true, lookupGroup]
        by_cases hd : k1 = d
        · subst hd
          simp [strBeqComm]
        · have h1 : (k1 == d) = false := by simpa using hd
          have h2 : (d == k1) = false := by simpa using fun x => hd x.symm
          simp [h1, h2]
      · have hkb : (k1 == day) = false := by simpa using hk
        simp only [hkb, Bool.false_eq_true, if_false, lookupGroup]
        by_cases hd : k1 = d
        · subst hd
          simp [hkb]
        · have h1 : (k1 == d) = false := by simpa using hd
          simp [h1, ih]

/-- The key sequence after a `setdefault`-append: unchanged when the day
label is already present, extended at the end otherwise. -/
theorem addToGroup_keys (g : List (String × List Json)) (day : String) (m : Json) :
    (addToGroup g day m).map Prod.fst =
      if day ∈ g.map Prod.fst then g.map Prod.fst
      else g.map Prod.fst ++ [day] := by
  induction g with
  | nil => simp [addToGroup]
  | cons kv rest ih =>
      obtain ⟨k1, l1⟩ := kv
      simp only [addToGroup]
      by_cases hk : k1 = day
      · subst hk
        simp
      · have hkb : (k1 == day) = false := by simpa using hk
        have hb2 : ¬day = k1 := fun x => hk x.symm
        simp only [hkb, Bool.false_eq_true, if_false, List.map_cons, ih]
        by_cases hmem : day ∈ rest.map Prod.fst
        · simp [hmem, hb2]
        · simp [hmem, hb2]

/-- The grouping loop characterised: on success, each day group holds
exactly the meals carrying that day label, in original list order, and
distinct labels stay distinct. -/
theorem groupMealsAux_spec (ms : List Json) :
    ∀ (g g2 : List (String × List Json)),
      groupMealsAux g ms = .ok g2 →
      (∀ d, lookupGroup g2 d =
        lookupGroup g d ++ ms.filter (fun m => mealDayLabel m == d)) ∧
      ((g.map Prod.fst).Nodup → (g2.map Prod.fst).Nodup) := by
  induction ms with
  | nil =>
      intro g g2 h
      simp only [groupMealsAux] at h
      cases h
      exact ⟨fun d => by simp, fun hg => hg⟩
  | cons m rest ih =>
      intro g g2 h
      cases m with
      | obj kvs =>
          simp only [groupMealsAux, pyGetD, exceptBind_ok] at h
          obtain ⟨hspec, hnd⟩ := ih _ _ h
          have hlabel : pyStr ((lookupKey kvs "day").getD (.str "Unknown")) =
              mealDayLabel (.obj kvs) := rfl
          refine ⟨fun d => ?_, fun hg => ?_⟩
          · rw [hspec d, lookupGroup_addToGroup, hlabel]
            by_cases hd : d = mealDayLabel (.obj kvs)
            · have h1 : (d == mealDayLabel (.obj kvs)) = true := by simpa using hd
              have h2 : (mealDayLabel (.obj kvs) == d) = true := by
                simpa using hd.symm
              simp [List.filter_cons, h1, h2]
            · have h1 : (d == mealDayLabel (.obj kvs)) = false := by simpa using hd
              have h2 : (mealDayLabel (.obj kvs) == d) = false := by
                simpa using fun x => hd x.symm
              simp [List.filter_cons, h1, h2]
          · apply hnd
            rw [addToGroup_keys]
            by_cases hmem : pyStr ((lookupKey kvs "day").getD (.str "Unknown")) ∈
                g.map Prod.fst
            · simpa [hmem] using hg
            · simp [hmem, List.nodup_append, hg]
      | null => simp [groupMealsAux, pyGetD, exceptBind_error] at h
      | bool b => simp [groupMealsAux, pyGetD, exceptBind_error] at h
      | num n => simp [groupMealsAux, pyGetD, exceptBind_error] at h
      | str s => simp [groupMealsAux, pyGetD, exceptBind_error] at h
      | arr xs => simp [groupMealsAux, pyGetD, exceptBind_error] at h

/-- Unfolding step of a monadic left fold. -/
theorem listFoldlM_cons {mo : Type → Type} [Monad mo] {σ α : Type}
    (f : σ → α → mo σ) (b : σ) (a : α) (l : List α) :
    List.foldlM f b (a :: l) = f b a >>= fun b2 => List.foldlM f b2 l := rfl

/-- A monadic left fold of the empty list. -/
theorem listFoldlM_nil {mo : Type → Type} [Monad mo] {σ α : Type}
    (f : σ → α → mo σ) (b : σ) :
    List.foldlM f b [] = pure b := rfl

/-- Accumulating rendered meal lines over a list of dict meals never
fails. -/
theorem renderFold_ok (l : List Json) (hall : ∀ m ∈ l, m.isObj = true) :
    ∀ acc : List String,
      ∃ out, (List.foldlM (fun acc m => do
          let ls ← renderMeal m
          pure (acc ++ ls)) acc l : Except PyErr (List String)) = .ok out := by
  induction l with
  | nil => intro acc; exact ⟨acc, rfl⟩
  | cons m rest ih =>
      intro acc
      have hm := hall m (List.mem_cons_self m rest)
      cases m with
      | obj kvs =>
          have hrest : ∀ x ∈ rest, x.isObj = true := fun x hx =>
            hall x (List.mem_cons_of_mem _ hx)
          rcases renderMeal_ok kvs with ⟨ls, hls⟩
          obtain ⟨out, hout⟩ := ih hrest (acc ++ ls)
          refine ⟨out, ?_⟩
          rw [listFoldlM_cons]
          simp only [hls, exceptBind_ok]
          exact hout
      | null => simp [Json.isObj] at hm
      | bool b => simp [Json.isObj] at hm
      | num n => simp [Json.isObj] at hm
      | str s => simp [Json.isObj] at hm
      | arr xs => simp [Json.isObj] at hm

/-- The lines of one day group render whenever every meal of the group
is a dict. -/
theorem dayLines_ok (g : List (String × List Json)) (day : String)
    (hall : ∀ m ∈ lookupGroup g day, m.isObj = true) :
    ∃ ls, dayLines g day = .ok ls := by
  obtain ⟨out, hout⟩ := renderFold_ok (lookupGroup g day) hall []
  refine ⟨("DAY " ++ day) :: charRun '-' 30 :: (out ++ [""]), ?_⟩
  simp only [dayLines, hout, exceptBind_ok]
  rfl

/-- Folding day sections over any day list succeeds when every group
member is a dict. -/
theorem daysFold_ok (g : List (String × List Json))
    (hall : ∀ d, ∀ m ∈ lookupGroup g d, m.isObj = true) :
    ∀ (days : List String) (acc : List String),
      ∃ out, (List.foldlM (fun acc d => do
          let ls ← dayLines g d
          pure (acc ++ ls)) acc days : Except PyErr (List String)) = .ok out := by
  intro days
  induction days with
  | nil => intro acc; exact ⟨acc, rfl⟩
  | cons d rest ih =>
      intro acc
      obtain ⟨ls, hls⟩ := dayLines_ok g d (hall d)
      obtain ⟨out, hout⟩ := ih (acc ++ ls)
      refine ⟨out, ?_⟩
      rw [listFoldlM_cons]
      simp only [hls, exceptBind_ok]
      exact hout

/-- The meal section never fails on a well-typed plan. -/
theorem mealsLines_ok (kvs : List (String × Json))
    (h : wellTypedPlan (.obj kvs) = true) :
    ∃ ls, mealsLines (.obj kvs) = .ok ls := by
  simp only [mealsLines, pyGetD, exceptBind_ok]
  cases hm : (lookupKey kvs "meals").getD .null with
  | arr ms =>
      have hall : ∀ x ∈ ms, x.isObj = true := by
        simp only [wellTypedPlan, hm, Bool.and_eq_true, List.all_eq_true] at h
        exact fun x hx => h.1 x hx
      obtain ⟨g, hg⟩ : ∃ g, groupMealsAux [] ms = .ok g := by
        clear h hm
        suffices hs : ∀ (acc : List (String × List Json)),
            ∃ g, groupMealsAux acc ms = .ok g from hs []
        induction ms with
        | nil => intro acc; exact ⟨acc, rfl⟩
        | cons m rest ih =>
            intro acc
            have hmo := hall m (List.mem_cons_self m rest)
            cases m with
            | obj kvs2 =>
                have hrest : ∀ x ∈ rest, x.isObj = true := fun x hx =>
                  hall x (List.mem_cons_of_mem _ hx)
                obtain ⟨g, hg⟩ := ih hrest _
                exact ⟨g, by simp only [groupMealsAux, pyGetD, exceptBind_ok]; exact hg⟩
            | null => simp [Json.isObj] at hmo
            | bool b => simp [Json.isObj] at hmo
            | num n => simp [Json.isObj] at hmo
            | str s => simp [Json.isObj] at hmo
            | arr xs => simp [Json.isObj] at hmo
      have hgroups : ∀ d, ∀ x ∈ lookupGroup g d, x.isObj = true := by
        intro d x hx
        have hspec := (groupMealsAux_spec ms [] g hg).1 d
        rw [hspec] at hx
        simp only [lookupGroup, List.nil_append] at hx
        exact hall x (List.mem_of_mem_filter hx)
      obtain ⟨out, hout⟩ := daysFold_ok g hgroups
        (sortStrings (g.map Prod.fst)) []
      refine ⟨out, ?_⟩
      have hg2 : groupMeals ms = Except.ok g := hg
      simp only [hg2, exceptBind_ok]
      exact hout
  | null => exact ⟨[], rfl⟩
  | bool b => exact ⟨[], rfl⟩
  | num n => exact ⟨[], rfl⟩
  | str s => exact ⟨[], rfl⟩
  | obj kvs2 => exact ⟨[], rfl⟩

/-- The nutrition section never fails on a well-typed plan. -/
theorem nutrientLines_ok (kvs : List (String × Json))
    (h : wellTypedPlan (.obj kvs) = true) :
    ∃ ls, nutrientLines (.obj kvs) = .ok ls := by
  have h2 : (!((lookupKey kvs "nutrients").getD .null).truthy ||
      ((lookupKey kvs "nutrients").getD .null).isObj) = true := by
    simp only [wellTypedPlan, Bool.and_eq_true] at h
    exact h.2.1
  simp only [nutrientLines, pyGetD, exceptBind_ok]
  by_cases ht : ((lookupKey kvs "nutrients").getD .null).truthy = true
  · have hobj : ((lookupKey kvs "nutrients").getD .null).isObj = true := by
      simpa [ht] using h2
    cases hval : (lookupKey kvs "nutrients").getD .null with
    | obj kvs2 =>
        rw [hval] at ht
        rw [if_pos ht]
        exact ⟨_, rfl⟩
    | null => rw [hval] at hobj; simp [Json.isObj] at hobj
    | bool b => rw [hval] at hobj; simp [Json.isObj] at hobj
    | num n => rw [hval] at hobj; simp [Json.isObj] at hobj
    | str s => rw [hval] at hobj; simp [Json.isObj] at hobj
    | arr xs => rw [hval] at hobj; simp [Json.isObj] at hobj
  · rw [if_neg ht]
    exact ⟨[], rfl⟩

/-- A dict grocery item always renders. -/
theorem renderItem_ok (kvs : List (String × Json)) :
    ∃ s, renderItem (.obj kvs) = .ok s := by
  simp only [renderItem, pyGetD, exceptBind_ok]
  by_cases hai : ((lookupKey kvs "aisle").getD .null).truthy = true
  · rw [if_pos hai]
    exact ⟨_, rfl⟩
  · rw [if_neg hai]
    exact ⟨_, rfl⟩

/-- Rendering a list of dict grocery items never fails. -/
theorem mapMItems_ok (xs : List Json) (hall : ∀ x ∈ xs, x.isObj = true) :
    ∃ out, (xs.mapM renderItem : Except PyErr (List String)) = .ok out := by
  induction xs with
  | nil => exact ⟨[], rfl⟩
  | cons x rest ih =>
      have hx := hall x (List.mem_cons_self x rest)
      cases x with
      | obj kvs =>
          have hrest : ∀ y ∈ rest, y.isObj = true := fun y hy =>
            hall y (List.mem_cons_of_mem _ hy)
          obtain ⟨s, hs⟩ := renderItem_ok kvs
          obtain ⟨out, hout⟩ := ih hrest
          refine ⟨s :: out, ?_⟩
          rw [List.mapM_cons]
          simp only [hs, exceptBind_ok]
          show List.cons s <$> List.mapM renderItem rest = Except.ok (s :: out)
          rw [hout]
          rfl
      | null => simp [Json.isObj] at hx
      | bool b => simp [Json.isObj] at hx
      | num n => simp [Json.isObj] at hx
      | str s => simp [Json.isObj] at hx
      | arr ys => simp [Json.isObj] at hx

/-- The grocery section never fails on a well-typed plan. -/
theorem groceryLines_ok (kvs : List (String × Json))
    (h : wellTypedPlan (.obj kvs) = true) :
    ∃ ls, groceryLines (.obj kvs) = .ok ls := by
  have h2 : (!((lookupKey kvs "items").getD .null).truthy ||
      (match (lookupKey kvs "items").getD .null with
       | .arr xs => xs.all Json.isObj
       | _ => false)) = true := by
    simp only [wellTypedPlan, Bool.and_eq_true] at h
    exact h.2.2
  simp only [groceryLines, pyGetD, exceptBind_ok]
  by_cases ht : ((lookupKey kvs "items").getD .null).truthy = true
  · have hm : (match (lookupKey kvs "items").getD .null with
        | Json.arr xs => xs.all Json.isObj
        | _ => false) = true := by
      simpa [ht] using h2
    cases hval : (lookupKey kvs "items").getD .null with
    | arr xs =>
        have hall : ∀ x ∈ xs, x.isObj = true := by
          rw [hval] at hm
          exact fun x hx => (List.all_eq_true.mp hm) x hx
        obtain ⟨out, hout⟩ := mapMItems_ok xs hall
        rw [hval] at ht
        rw [if_pos ht]
        refine ⟨("\n" ++ charRun '=' 50) :: "GROCERY LIST" :: charRun '-' 30 :: out, ?_⟩
        show (List.mapM renderItem xs >>= fun ls =>
          pure (("\n" ++ charRun '=' 50) :: "GROCERY LIST" :: charRun '-' 30 :: ls)) =
            Except.ok (("\n" ++ charRun '=' 50) :: "GROCERY LIST" :: charRun '-' 30 :: out)
        rw [hout]
        rfl
    | null => rw [hval] at hm; simp at hm
    | bool b => rw [hval] at hm; simp at hm
    | num n => rw [hval] at hm; simp at hm
    | str s => rw [hval] at hm; simp at hm
    | obj kvs2 => rw [hval] at hm; simp at hm
  · rw [if_neg ht]
    exact ⟨[], rfl⟩

/-- C4 counterexample: the formatter raises on a plan whose `meals` list
holds a non-dict element — `meal.get("day", "Unknown")` at source line 81
is an `AttributeError` on the integer `1` — so it is not total over all
raw plan JSON values. -/
theorem claim_C4_counterexample :
    format_meal_plan (.obj [("meals", .arr [.num 1])]) (.obj []) ⟨2026, 10, 12⟩ =
      .error .attributeError := rfl

/-- C4 as amended: the formatter is total on every plan whose present
fields are well-typed (the plan a dict; `meals`, when a list, a list of
dicts; `nutrients`, when truthy, a dict; `items`, when truthy, a list of
dicts) and every dict preferences value; missing fields only drop lines
or fall back to placeholders, never raise. -/
theorem claim_C4 (plan prefs : Json) (now : Date)
    (hplan : wellTypedPlan plan = true) (hprefs : prefs.isObj = true) :
    exceptOk (format_meal_plan plan prefs now) = true := by
  cases plan with
  | obj kvs =>
      cases prefs with
      | obj pkvs =>
          obtain ⟨hd, hhd⟩ := headerLines_ok pkvs now
          obtain ⟨ml, hml⟩ := mealsLines_ok kvs hplan
          obtain ⟨nl, hnl⟩ := nutrientLines_ok kvs hplan
          obtain ⟨gl, hgl⟩ := groceryLines_ok kvs hplan
          simp only [format_meal_plan, hhd, hml, hnl, hgl, exceptBind_ok]
          rfl
      | null => simp [Json.isObj] at hprefs
      | bool b => simp [Json.isObj] at hprefs
      | num n => simp [Json.isObj] at hprefs
      | str s => simp [Json.isObj] at hprefs
      | arr xs => simp [Json.isObj] at hprefs
  | null => simp [wellTypedPlan] at hplan
  | bool b => simp [wellTypedPlan] at hplan
  | num n => simp [wellTypedPlan] at hplan
  | str s => simp [wellTypedPlan] at hplan
  | arr xs => simp [wellTypedPlan] at hplan

/-- Witness fixture: a well-typed plan exercising all three sections. -/
def planW : Json :=
  .obj [("meals", .arr [.obj [("day", .str "1"), ("title", .str "Toast"),
          ("readyInMinutes", .num 10), ("servings", .num 2), ("id", .num 7)]]),
        ("nutrients", .obj [("calories", .num 1800)]),
        ("items", .arr [.obj [("name", .str "Bread"), ("aisle", .str "Bakery")]])]

/-- C4 witness: the amended totality theorem applied to a concrete
well-typed plan. -/
theorem claim_C4_witness :
    wellTypedPlan planW = true ∧ Json.isObj (.obj []) = true ∧
    exceptOk (format_meal_plan planW (.obj []) nowW) = true :=
  ⟨rfl, rfl, claim_C4 planW (.obj []) nowW rfl rfl⟩

/-- C6 counterexample: with the event-date preference absent the
formatter reads the wall clock (`datetime.utcnow()`, source line 62), so
the same raw plan and preferences formatted on two different generation
dates give different text — byte-identical output is not guaranteed in
the absent case. -/
theorem claim_C6_counterexample :
    format_meal_plan (.obj []) (.obj []) ⟨2026, 10, 12⟩ ≠
      format_meal_plan (.obj []) (.obj []) ⟨2026, 10, 13⟩ := by
  intro h
  have h2 := Except.ok.inj h
  exact absurd h2 (by decide)

/-- A truthy event date makes the rendered date independent of the wall
clock. -/
theorem readableDate_truthy (ed : Json) (h : ed.truthy = true) (n1 n2 : Date) :
    readableDate ed n1 = readableDate ed n2 := by
  unfold readableDate
  rw [if_pos h, if_pos h]

/-- A truthy event date makes the whole header independent of the wall
clock. -/
theorem headerLines_truthy_eventDate (kvs : List (String × Json))
    (h : ((lookupKey kvs "eventDate").getD .null).truthy = true) (n1 n2 : Date) :
    headerLines (.obj kvs) n1 = headerLines (.obj kvs) n2 := by
  simp only [headerLines, pyGetD, exceptBind_ok]
  rw [readableDate_truthy _ h n1 n2]

/-- C6 as amended: formatting is a pure function of the raw plan, the
preferences and the generation date; whenever the event-date preference
is present (truthy), the output does not depend on the generation date
at all, so repeated calls are byte-identical.  With the event date
absent, calls on different generation dates may differ (see the
counterexample). -/
theorem claim_C6 (plan : Json) (kvs : List (String × Json)) (now1 now2 : Date)
    (h : ((lookupKey kvs "eventDate").getD .null).truthy = true) :
    format_meal_plan plan (.obj kvs) now1 = format_meal_plan plan (.obj kvs) now2 := by
  simp only [format_meal_plan]
  rw [headerLines_truthy_eventDate kvs h now1 now2]

/-- C6 witness: a concrete present event date gives identical output on
two different generation dates. -/
theorem claim_C6_witness :
    ((lookupKey [("eventDate", Json.str "2026-01-02")] "eventDate").getD
      .null).truthy = true ∧
    format_meal_plan (.obj []) (.obj [("eventDate", .str "2026-01-02")])
        ⟨2026, 1, 1⟩ =
      format_meal_plan (.obj []) (.obj [("eventDate", .str "2026-01-02")])
        ⟨2027, 5, 5⟩ :=
  ⟨rfl, claim_C6 (.obj []) [("eventDate", .str "2026-01-02")] ⟨2026, 1, 1⟩
    ⟨2027, 5, 5⟩ rfl⟩

/-- Characters with the same code point are equal. -/
theorem charToNat_inj (a b : Char) (h : a.toNat = b.toNat) : a = b := by
  have h2 : a.val = b.val := UInt32.toNat.inj h
  cases a
  cases b
  simp_all

/-- The code-point order on character lists is asymmetric. -/
theorem charsLt_asymm : ∀ x y : List Char, charsLt x y = true → charsLt y x = false := by
  intro x
  induction x with
  | nil => intro y _; cases y <;> rfl
  | cons a as ih =>
      intro y h
      cases y with
      | nil => simp [charsLt] at h
      | cons b bs =>
          simp only [charsLt] at h ⊢
          by_cases h1 : a.toNat < b.toNat
          · have h2 : ¬b.toNat < a.toNat := by omega
            simp [h1, h2]
          · by_cases h2 : b.toNat < a.toNat
            · simp [h1, h2] at h
            · simp only [h1, h2, if_false] at h ⊢
              exact ih bs h

/-- Two character lists neither of which precedes the other are equal. -/
theorem charsLt_conn : ∀ x y : List Char,
    charsLt x y = false → charsLt y x = false → x = y := by
  intro x
  induction x with
  | nil =>
      intro y h1 _
      cases y with
      | nil => rfl
      | cons b bs => simp [charsLt] at h1
  | cons a as ih =>
      intro y h1 h2
      cases y with
      | nil => simp [charsLt] at h2
      | cons b bs =>
          simp only [charsLt] at h1 h2
          by_cases hab : a.toNat < b.toNat
          · simp [hab] at h1
          · by_cases hba : b.toNat < a.toNat
            · simp [hba, hab] at h2
            · simp only [hab, hba, if_false] at h1 h2
              have hc : a = b := charToNat_inj a b (by omega)
              rw [hc, ih bs h1 h2]

/-- The code-point order on character lists is transitive. -/
theorem charsLt_trans : ∀ x y z : List Char,
    charsLt x y = true → charsLt y z = true → charsLt x z = true := by
  intro x
  induction x with
  | nil =>
      intro y z h1 h2
      cases y with
      | nil => simp [charsLt] at h1
      | cons b bs =>
          cases z with
          | nil => simp [charsLt] at h2
          | cons c cs => rfl
  | cons a as ih =>
      intro y z h1 h2
      cases y with
      | nil => simp [charsLt] at h1
      | cons b bs =>
          cases z with
          | nil => simp [charsLt] at h2
          | cons c cs =>
              simp only [charsLt] at h1 h2 ⊢
              by_cases hab : a.toNat < b.toNat
              · by_cases hbc : b.toNat < c.toNat
                · have : a.toNat < c.toNat := by omega
                  simp [this]
                · by_cases hcb : c.toNat < b.toNat
                  · simp [hbc, hcb] at h2
                  · have hbceq : b.toNat = c.toNat := by omega
                    have : a.toNat < c.toNat := by omega
                    simp [this]
              · by_cases hba : b.toNat < a.toNat
                · simp [hab, hba] at h1
                · have habeq : a.toNat = b.toNat := by omega
                  by_cases hbc : b.toNat < c.toNat
                  · have : a.toNat < c.toNat := by omega
                    simp [this]
                  · by_cases hcb : c.toNat < b.toNat
                    · simp [hbc, hcb] at h2
                    · simp only [hab, hba, if_false] at h1
                      simp only [hbc, hcb, if_false] at h2
                      have hac : ¬a.toNat < c.toNat := by omega
                      have hca : ¬c.toNat < a.toNat := by omega
                      simp only [hac, hca, if_false]
                      exact ih bs cs h1 h2

/-- Totality of the Python string `<=`. -/
theorem strLeB_total (a b : String) : strLeB a b = true ∨ strLeB b a = true := by
  simp only [strLeB, Bool.not_eq_true']
  by_cases h : charsLt b.data a.data = true
  · right
    exact charsLt_asymm _ _ h
  · left
    simpa using h

/-- Transitivity of the Python string `<=`. -/
theorem strLeB_trans (a b c : String) (h1 : strLeB a b = true)
    (h2 : strLeB b c = true) : strLeB a c = true := by
  simp only [strLeB, Bool.not_eq_true'] at h1 h2 ⊢
  by_cases hca : charsLt c.data a.data = true
  · by_cases hab : charsLt a.data b.data = true
    · have := charsLt_trans _ _ _ hca hab
      rw [this] at h2
      exact absurd h2 (by simp)
    · have heq : a.data = b.data := charsLt_conn _ _ (by simpa using hab) h1
      rw [heq] at hca
      rw [hca] at h2
      exact absurd h2 (by simp)
  · simpa using hca

/-- A weak inequality between distinct strings is strict. -/
theorem strLtB_of_le_ne (a b : String) (hle : strLeB a b = true) (hne : a ≠ b) :
    strLtB a b = true := by
  simp only [strLeB, Bool.not_eq_true'] at hle
  simp only [strLtB]
  by_cases h : charsLt a.data b.data = true
  · exact h
  · have heq : a.data = b.data := charsLt_conn _ _ (by simpa using h) hle
    exact absurd (congrArg String.mk heq) hne

/-- Inserting into a sorted list permutes consing. -/
theorem insertSorted_perm (a : String) (l : List String) :
    List.Perm (insertSorted a l) (a :: l) := by
  induction l with
  | nil => exact List.Perm.refl _
  | cons b bs ih =>
      simp only [insertSorted]
      by_cases h : strLeB a b = true
      · rw [if_pos h]
      · rw [if_neg h]
        exact (ih.cons b).trans (List.Perm.swap a b bs)

/-- The sort permutes its input. -/
theorem sortStrings_perm (l : List String) : List.Perm (sortStrings l) l := by
  induction l with
  | nil => exact List.Perm.refl _
  | cons a as ih =>
      exact (insertSorted_perm a (sortStrings as)).trans (ih.cons a)

/-- Insertion preserves weak sortedness. -/
theorem insertSorted_pairwise (a : String) (l : List String)
    (h : l.Pairwise (fun x y => strLeB x y = true)) :
    (insertSorted a l).Pairwise (fun x y => strLeB x y = true) := by
  induction l with
  | nil => simp [insertSorted]
  | cons b bs ih =>
      rw [List.pairwise_cons] at h
      obtain ⟨hb, hbs⟩ := h
      simp only [insertSorted]
      by_cases hab : strLeB a b = true
      · rw [if_pos hab]
        refine List.Pairwise.cons ?_ (List.Pairwise.cons hb hbs)
        intro x hx
        rcases List.mem_cons.mp hx with rfl | hx2
        · exact hab
        · exact strLeB_trans a b x hab (hb x hx2)
      · rw [if_neg hab]
        have hba : strLeB b a = true := by
          rcases strLeB_total a b with h1 | h1
          · exact absurd h1 hab
          · exact h1
        refine List.Pairwise.cons ?_ (ih hbs)
        intro x hx
        have hx3 := (insertSorted_perm a bs).mem_iff.mp hx
        rcases List.mem_cons.mp hx3 with rfl | hx2
        · exact hba
        · exact hb x hx2

/-- The sort produces a weakly ascending list. -/
theorem sortStrings_pairwise (l : List String) :
    (sortStrings l).Pairwise (fun x y => strLeB x y = true) := by
  induction l with
  | nil => simp [sortStrings]
  | cons a as ih => exact insertSorted_pairwise a (sortStrings as) ih

/-- On a duplicate-free list the sort is strictly ascending. -/
theorem sortStrings_sorted_lt (l : List String) (h : l.Nodup) :
    (sortStrings l).Pairwise (fun x y => strLtB x y = true) := by
  have hn : (sortStrings l).Nodup := ((sortStrings_perm l).nodup_iff).mpr h
  have hp := sortStrings_pairwise l
  exact hp.imp₂ (fun x y hle hne => strLtB_of_le_ne x y hle hne) hn

/-- C5 fixture: the spec example meal tagged day 2. -/
def mealA : Json := .obj [("day", .str "2"), ("title", .str "Meal A")]

/-- C5 fixture: the first meal tagged day 1. -/
def mealB : Json := .obj [("day", .str "1"), ("title", .str "Meal B")]

/-- C5 fixture: the second meal tagged day 1. -/
def mealC : Json := .obj [("day", .str "1"), ("title", .str "Meal C")]

/-- C5 fixture: the meal list of the spec example, day labels
2, 1, 1. -/
def exampleMeals : List Json := [mealA, mealB, mealC]

/-- C5 fixture: the plan holding the example meals. -/
def examplePlanC5 : Json := .obj [("meals", .arr exampleMeals)]

/-- C5 fixture: the grouping the loop builds in insertion order. -/
def exampleGroups : List (String × List Json) :=
  [("2", [mealA]), ("1", [mealB, mealC])]

/-- C5 fixture: the expected meal-section lines — DAY 1 first with the
two day-1 meals in original relative order, then DAY 2. -/
def exampleC5Lines : List String :=
  ["DAY 1", charRun '-' 30, "🍽️ Meal B", "", "🍽️ Meal C", "", "",
   "DAY 2", charRun '-' 30, "🍽️ Meal A", "", ""]

/-- C5: the formatter groups meals by their day label, emits the day
groups in strictly ascending string order of the label, and inside each
day keeps the meals in their original relative order (each group is
exactly the in-order filter of the meal list by label); on the concrete
example with labels 2, 1, 1 the output is DAY 1 with the two day-1 meals
in original order, then DAY 2. -/
theorem claim_C5 :
    (∀ (ms : List Json) (g : List (String × List Json)),
      groupMeals ms = .ok g →
      (List.Pairwise (fun a b => strLtB a b = true)
          (sortStrings (g.map Prod.fst)) ∧
       ∀ d, lookupGroup g d = ms.filter (fun m => mealDayLabel m == d))) ∧
    mealsLines examplePlanC5 = .ok exampleC5Lines := by
  constructor
  · intro ms g hg
    have hspec := groupMealsAux_spec ms [] g hg
    refine ⟨?_, ?_⟩
    · exact sortStrings_sorted_lt _ (hspec.2 (by simp))
    · intro d
      have h := hspec.1 d
      simpa [lookupGroup] using h
  · rfl

/-- C5 witness: the grouping characterisation applied to the concrete
example — day 1 holds exactly the in-order filter of the meal list. -/
theorem claim_C5_witness :
    groupMeals exampleMeals = .ok exampleGroups ∧
    lookupGroup exampleGroups "1" =
      exampleMeals.filter (fun m => mealDayLabel m == "1") :=
  ⟨rfl, (claim_C5.1 exampleMeals exampleGroups rfl).2 "1"⟩

